import Mathlib

/-!
# MyCamera: the logging facade and the `processRaw` bridge entry point

A shallow embedding of `app/src/main/cpp/logging.h` and
`app/src/main/cpp/processor.cpp`.

* The platform log sink is an explicit list of entries inside a `World`; every
  operation is a state-passing function `World ρ → Unit × World ρ`.
* The platform primitive `__android_log_print` is declared in `android/log.h`,
  which is not part of the sources; it is modelled here, together with its
  `printf`-style formatting, and its integer return code is left to an
  arbitrary `ReturnCode` function.
* The four macros of `logging.h` and the entry point of `processor.cpp` are
  translated line by line on top of that primitive.
* Concurrent invocations are interleavings of the statements of the entry
  point, one call of the platform primitive being one step.
-/

namespace MyCamera

/-! ## Data model -/

/-- The JNI type `jint`: a signed 32-bit integer. -/
def jint : Type := { v : Int // -2147483648 ≤ v ∧ v ≤ 2147483647 }

instance : DecidableEq jint := by unfold jint; infer_instance

/-- The JNI type `jobject`: an opaque reference, `none` being the null reference. -/
def jobject : Type := Option Nat

/-- The JNI execution-environment handle `JNIEnv *`, an opaque address. -/
def JNIEnv : Type := Nat

/-- Modelled from the spec: the severity levels of the platform header
`android/log.h` (not part of the sources) that `logging.h` names; the spec fixes
them as the four levels info, warn, error and debug. -/
inductive android_LogPriority where
  | ANDROID_LOG_DEBUG
  | ANDROID_LOG_INFO
  | ANDROID_LOG_WARN
  | ANDROID_LOG_ERROR
  deriving DecidableEq, Repr

/-- One element of a C variadic argument list, as far as this program passes
them: an `int` (a `jint` is an `int32_t`, unchanged by the default argument
promotions) or a string. -/
inductive LogArg where
  | int (v : jint)
  | str (s : String)
  deriving DecidableEq

/-- One entry of the platform log: what one call of the log-write primitive
handed over, namely severity, tag, format string and arguments. -/
structure LogEntry where
  prio : android_LogPriority
  tag : String
  fmt : String
  args : List LogArg
  deriving DecidableEq

/-- The external state: the platform log sink and, in `rest`, everything else
(the managed heap with the buffer behind `data`, the pending-exception slot of
the environment, files, globals). -/
structure World (ρ : Type) where
  log : List LogEntry
  rest : ρ

/-- The integer the platform primitive returns for an entry, given the log so
far. The sources say nothing about it, so it is an arbitrary function. -/
abbrev ReturnCode : Type := List LogEntry → LogEntry → Int

/-! ## Platform formatting (`printf` subset) -/

/-- The character of a decimal digit `d < 10`. -/
def digitChar (d : Nat) : Char := Char.ofNat (48 + d)

/-- Decimal digits of `n`, most significant first, in front of `acc`;
`fuel` bounds the number of digits produced. -/
def decimalDigits : Nat → Nat → List Char → List Char
  | 0, _, acc => acc
  | fuel + 1, n, acc =>
    if n < 10 then digitChar n :: acc
    else decimalDigits fuel (n / 10) (digitChar (n % 10) :: acc)

/-- Unsigned decimal rendering of a natural number. -/
def renderNat (n : Nat) : List Char := decimalDigits (n + 1) n []

/-- Modelled from the spec: the text the platform formatter gives the
conversion `%d` of a signed integer: a minus sign for a negative value, then
the decimal digits of the magnitude. -/
def renderInt (v : Int) : List Char :=
  if v < 0 then '-' :: renderNat v.natAbs else renderNat v.natAbs

/-- Modelled from the spec: the platform's `printf`-style formatting, which is
not part of the sources. `%%` gives a percent sign, `%d` and `%i` take an `int`
and print it signed, `%u` takes an `int` and prints it as an unsigned 32-bit
value, `%s` takes a string; arguments left over are ignored. Any other
conversion, or one without a matching argument, has no defined text (`none`).
The platform's limit on the length of a message is not modelled. -/
def formatChars : List Char → List LogArg → Option (List Char)
  | [], _ => some []
  | '%' :: '%' :: rest, args => (formatChars rest args).map ('%' :: ·)
  | '%' :: 'd' :: rest, LogArg.int v :: args =>
    (formatChars rest args).map (renderInt v.val ++ ·)
  | '%' :: 'i' :: rest, LogArg.int v :: args =>
    (formatChars rest args).map (renderInt v.val ++ ·)
  | '%' :: 'u' :: rest, LogArg.int v :: args =>
    (formatChars rest args).map (renderNat (v.val % 4294967296).toNat ++ ·)
  | '%' :: 's' :: rest, LogArg.str s :: args =>
    (formatChars rest args).map (s.data ++ ·)
  | '%' :: _, _ => none
  | c :: rest, args => (formatChars rest args).map (c :: ·)

/-- The formatted text of a format string and its arguments. -/
def format (fmt : String) (args : List LogArg) : Option String :=
  (formatChars fmt.data args).map String.mk

/-- The rendered text of a log entry. -/
def LogEntry.text (e : LogEntry) : Option String := format e.fmt e.args

/-! ## The platform primitive -/

/-- Modelled from the spec: the platform log-write primitive of
`android/log.h`, which is not part of the sources. One call writes one entry,
made of the severity, the tag, the format string and the arguments, at the end
of the log, touches nothing else, and returns an integer. -/
def __android_log_print {ρ : Type} (ret : ReturnCode) (prio : android_LogPriority)
    (tag : String) (fmt : String) (args : List LogArg) (s : World ρ) : Int × World ρ :=
  (ret s.log ⟨prio, tag, fmt, args⟩, { s with log := s.log ++ [⟨prio, tag, fmt, args⟩] })

/-! ## `logging.h` -/

/-- The C cast `(void) e`: run `e`, drop its value. -/
def void {σ α : Type} (e : σ → α × σ) (s : σ) : Unit × σ := ((), (e s).2)

/-- The macro `#define LOGI(...) ((void) __android_log_print(ANDROID_LOG_INFO, LOG_TAG, __VA_ARGS__))` -/
def LOGI {ρ : Type} (ret : ReturnCode) (LOG_TAG : String) (fmt : String)
    (args : List LogArg) : World ρ → Unit × World ρ :=
  void (__android_log_print ret android_LogPriority.ANDROID_LOG_INFO LOG_TAG fmt args)

/-- The macro `#define LOGW(...) ((void) __android_log_print(ANDROID_LOG_WARN, LOG_TAG, __VA_ARGS__))` -/
def LOGW {ρ : Type} (ret : ReturnCode) (LOG_TAG : String) (fmt : String)
    (args : List LogArg) : World ρ → Unit × World ρ :=
  void (__android_log_print ret android_LogPriority.ANDROID_LOG_WARN LOG_TAG fmt args)

/-- The macro `#define LOGE(...) ((void) __android_log_print(ANDROID_LOG_ERROR, LOG_TAG, __VA_ARGS__))` -/
def LOGE {ρ : Type} (ret : ReturnCode) (LOG_TAG : String) (fmt : String)
    (args : List LogArg) : World ρ → Unit × World ρ :=
  void (__android_log_print ret android_LogPriority.ANDROID_LOG_ERROR LOG_TAG fmt args)

/-- The macro `#define LOGD(...) ((void) __android_log_print(ANDROID_LOG_DEBUG, LOG_TAG, __VA_ARGS__))` -/
def LOGD {ρ : Type} (ret : ReturnCode) (LOG_TAG : String) (fmt : String)
    (args : List LogArg) : World ρ → Unit × World ρ :=
  void (__android_log_print ret android_LogPriority.ANDROID_LOG_DEBUG LOG_TAG fmt args)

/-! ## `processor.cpp` -/

/-- The tag of `processor.cpp`: `#define LOG_TAG "MyProcessor"`. -/
def LOG_TAG : String := "MyProcessor"

/-- The bridge entry point `processRaw` of `processor.cpp`: two `LOGD` calls,
the first with `width`, the second with `height`; `env`, the receiver and
`data` are not used. -/
def Java_com_mdnssknght_mycamera_processor_Processor_00024Companion_processRaw {ρ : Type}
    (ret : ReturnCode) (_env : JNIEnv) (_this : jobject) (_data : jobject)
    (width : jint) (height : jint) (s : World ρ) : Unit × World ρ :=
  let s1 := (LOGD ret LOG_TAG "RAW width: %d" [LogArg.int width] s).2
  let s2 := (LOGD ret LOG_TAG "RAW height: %d" [LogArg.int height] s1).2
  ((), s2)

/-! ## Sequences of calls -/

/-- The arguments of one invocation of the bridge entry point. -/
structure Call where
  env : JNIEnv
  this : jobject
  data : jobject
  width : jint
  height : jint

/-- The world after one invocation of the entry point. -/
def Call.run {ρ : Type} (ret : ReturnCode) (c : Call) (s : World ρ) : World ρ :=
  (Java_com_mdnssknght_mycamera_processor_Processor_00024Companion_processRaw ret
    c.env c.this c.data c.width c.height s).2

/-- The world after a sequence of invocations, run one after the other. -/
def runCalls {ρ : Type} (ret : ReturnCode) : List Call → World ρ → World ρ
  | [], s => s
  | c :: cs, s => runCalls ret cs (c.run ret s)

/-- The entries one invocation with `width` and `height` writes when it runs
alone: on an empty log, with null references and a primitive returning 0. -/
def entriesAlone (width height : jint) : List LogEntry :=
  (Java_com_mdnssknght_mycamera_processor_Processor_00024Companion_processRaw
    (fun _ _ => 0) (0 : Nat) none none width height (World.mk [] ())).2.log

/-- The entries written between two states of the log: those of `after` beyond
the length of `before`. -/
def appended (before after : List LogEntry) : List LogEntry := after.drop before.length

/-! ## Concurrent invocations -/

/-- The body of the entry point, statement by statement: statement 0 is the
`LOGD` call with `width`, statement 1 the `LOGD` call with `height`; there is no
further statement. One statement is one call of the platform primitive, which
the platform carries out as a whole. -/
def Call.stmt {ρ : Type} (ret : ReturnCode) (c : Call) : Nat → World ρ → World ρ
  | 0, s => (LOGD ret LOG_TAG "RAW width: %d" [LogArg.int c.width] s).2
  | 1, s => (LOGD ret LOG_TAG "RAW height: %d" [LogArg.int c.height] s).2
  | _, s => s

/-- A configuration of several invocations running at once: the shared world,
for each invocation the number of statements it has executed, and a record of
which invocation wrote which entry since the start. -/
structure Config (ρ : Type) where
  world : World ρ
  pc : Nat → Nat
  trace : List (Nat × LogEntry)

/-- The configuration in which no invocation has executed a statement yet. -/
def Config.init {ρ : Type} (s : World ρ) : Config ρ := ⟨s, fun _ => 0, []⟩

/-- Invocation `i` of `calls` executes its next statement, if it has one left;
what that statement adds to the log is recorded as written by `i`. -/
def Config.step {ρ : Type} (ret : ReturnCode) (calls : List Call) (i : Nat)
    (c : Config ρ) : Config ρ :=
  match calls[i]? with
  | none => c
  | some call =>
    if c.pc i < 2 then
      { world := call.stmt ret (c.pc i) c.world
        pc := fun j => if j = i then c.pc i + 1 else c.pc j
        trace := c.trace ++
          (appended c.world.log (call.stmt ret (c.pc i) c.world).log).map (fun e => (i, e)) }
    else c

/-- The configuration after an interleaving: the schedule names, step by step,
the invocation that runs next. -/
def interleave {ρ : Type} (ret : ReturnCode) (calls : List Call) :
    List Nat → Config ρ → Config ρ
  | [], c => c
  | i :: sched, c => interleave ret calls sched (c.step ret calls i)

/-- The entries of a record that invocation `i` wrote, in the order of the log. -/
def ownEntries (i : Nat) (trace : List (Nat × LogEntry)) : List LogEntry :=
  (trace.filter (fun p => decide (p.1 = i))).map Prod.snd

/-- Reading a digit string back: the value accumulated so far, times ten, plus the digit. -/
def readDigit (a : Nat) (c : Char) : Nat := a * 10 + (c.toNat - 48)

/-! ## Basic facts -/

theorem digitChar_ne_minus : ∀ d, d < 10 → digitChar d ≠ '-' := by decide

theorem digitChar_toNat : ∀ d, d < 10 → (digitChar d).toNat - 48 = d := by decide

theorem foldl_decimalDigits (fuel : Nat) : ∀ (n : Nat) (acc : List Char), n < fuel →
    List.foldl readDigit 0 (decimalDigits fuel n acc) = List.foldl readDigit n acc := by
  induction fuel with
  | zero => intro n acc h; omega
  | succ k ih =>
    intro n acc h
    unfold decimalDigits
    split
    · rename_i hn
      simp [readDigit, digitChar_toNat n hn]
    · rename_i hn
      rw [ih (n / 10) _ (by omega)]
      have hd := digitChar_toNat (n % 10) (by omega)
      simp only [List.foldl_cons, readDigit, hd]
      congr 1
      omega

theorem decimalDigits_head (fuel : Nat) : ∀ (n : Nat) (acc : List Char), n < fuel →
    ∃ d l, d < 10 ∧ decimalDigits fuel n acc = digitChar d :: l := by
  induction fuel with
  | zero => intro n acc h; omega
  | succ k ih =>
    intro n acc h
    unfold decimalDigits
    split
    · rename_i hn
      exact ⟨n, acc, hn, rfl⟩
    · exact ih (n / 10) _ (by omega)

theorem renderNat_injective (m n : Nat) (h : renderNat m = renderNat n) : m = n := by
  have hm := foldl_decimalDigits (m + 1) m [] (by omega)
  have hn := foldl_decimalDigits (n + 1) n [] (by omega)
  unfold renderNat at h
  rw [h, hn] at hm
  simpa using hm.symm

theorem renderNat_ne_minus (n : Nat) (l : List Char) : renderNat n ≠ '-' :: l := by
  obtain ⟨d, t, hd, ht⟩ := decimalDigits_head (n + 1) n [] (by omega)
  unfold renderNat
  rw [ht]
  intro h
  exact digitChar_ne_minus d hd (List.cons.inj h).1

theorem renderInt_injective (a b : Int) (h : renderInt a = renderInt b) : a = b := by
  unfold renderInt at h
  split at h <;> split at h
  · have := renderNat_injective _ _ (List.cons.inj h).2
    omega
  · exact absurd h.symm (renderNat_ne_minus _ _)
  · exact absurd h (renderNat_ne_minus _ _)
  · have := renderNat_injective _ _ h
    omega

theorem LOGD_eq {ρ : Type} (ret : ReturnCode) (tag fmt : String) (args : List LogArg)
    (s : World ρ) :
    LOGD ret tag fmt args s
      = ((), World.mk (s.log ++ [⟨android_LogPriority.ANDROID_LOG_DEBUG, tag, fmt, args⟩]) s.rest) :=
  rfl

theorem processRaw_eq {ρ : Type} (ret : ReturnCode) (env : JNIEnv) (this data : jobject)
    (width height : jint) (s : World ρ) :
    Java_com_mdnssknght_mycamera_processor_Processor_00024Companion_processRaw ret env this data
        width height s
      = ((), World.mk (s.log ++
          [⟨android_LogPriority.ANDROID_LOG_DEBUG, "MyProcessor", "RAW width: %d", [LogArg.int width]⟩,
           ⟨android_LogPriority.ANDROID_LOG_DEBUG, "MyProcessor", "RAW height: %d",
             [LogArg.int height]⟩]) s.rest) := by
  simp [Java_com_mdnssknght_mycamera_processor_Processor_00024Companion_processRaw, LOGD_eq,
    LOG_TAG]

theorem format_width (width : jint) :
    format "RAW width: %d" [LogArg.int width]
      = some ("RAW width: " ++ String.mk (renderInt width.val)) := by
  simp [format, formatChars]
  rfl

theorem format_height (height : jint) :
    format "RAW height: %d" [LogArg.int height]
      = some ("RAW height: " ++ String.mk (renderInt height.val)) := by
  simp [format, formatChars]
  rfl

theorem appended_append (l extra : List LogEntry) : appended l (l ++ extra) = extra := by
  simp [appended]

/-! ## The claims -/

/-- C1: for every width and height and every choice of the other arguments, one call of
the entry point `processRaw` leaves the log as the old log followed by exactly two entries:
first the debug entry with tag "MyProcessor", format "RAW width: %d" and the single
argument `width`, then the debug entry with tag "MyProcessor", format "RAW height: %d"
and the single argument `height`; their texts are "RAW width: " and "RAW height: "
followed by the signed decimal of the value. For (4032, 3024) the texts are
"RAW width: 4032" and "RAW height: 3024", for (0, 0) they are "RAW width: 0" and
"RAW height: 0". -/
theorem processRaw_logs_width_then_height {ρ : Type} (ret : ReturnCode) (env : JNIEnv)
    (this data : jobject) (s : World ρ) :
    (∀ width height : jint,
      (Java_com_mdnssknght_mycamera_processor_Processor_00024Companion_processRaw ret env this
          data width height s).2.log
        = s.log ++
          [⟨android_LogPriority.ANDROID_LOG_DEBUG, "MyProcessor", "RAW width: %d",
             [LogArg.int width]⟩,
           ⟨android_LogPriority.ANDROID_LOG_DEBUG, "MyProcessor", "RAW height: %d",
             [LogArg.int height]⟩]
      ∧ (appended s.log
          (Java_com_mdnssknght_mycamera_processor_Processor_00024Companion_processRaw ret env
            this data width height s).2.log).map LogEntry.text
        = [some ("RAW width: " ++ String.mk (renderInt width.val)),
           some ("RAW height: " ++ String.mk (renderInt height.val))])
    ∧ (appended s.log
        (Java_com_mdnssknght_mycamera_processor_Processor_00024Companion_processRaw ret env
          this data ⟨4032, by decide⟩ ⟨3024, by decide⟩ s).2.log).map LogEntry.text
      = [some "RAW width: 4032", some "RAW height: 3024"]
    ∧ (appended s.log
        (Java_com_mdnssknght_mycamera_processor_Processor_00024Companion_processRaw ret env
          this data ⟨0, by decide⟩ ⟨0, by decide⟩ s).2.log).map LogEntry.text
      = [some "RAW width: 0", some "RAW height: 0"] := by
  refine ⟨fun width height => ⟨by rw [processRaw_eq], ?_⟩, ?_, ?_⟩
  · rw [processRaw_eq, appended_append]
    simp [LogEntry.text, format_width, format_height]
  · rw [processRaw_eq, appended_append]
    decide
  · rw [processRaw_eq, appended_append]
    decide

/-- C2: each of the four logging operations `LOGI`, `LOGW`, `LOGE` and `LOGD`, given the
tag `LOG_TAG`, a format string and an argument list, is one call of the platform log-write
primitive with the severity info, warn, error and debug respectively, the same tag, format
string and arguments; so it returns nothing and leaves the log as the old log followed by
exactly one entry, of that severity, with that tag, format and arguments, whose text is
the formatted text; nothing else changes. With the tag "MyTag", the format
"%s took %d ms" and the arguments "capture" and 12, `LOGW` writes one warn entry with the
text "capture took 12 ms". -/
theorem logging_macros_write_one_entry {ρ : Type} (ret : ReturnCode) (LOG_TAG fmt : String)
    (args : List LogArg) (s : World ρ) :
    (LOGI ret LOG_TAG fmt args s
        = ((), (__android_log_print ret android_LogPriority.ANDROID_LOG_INFO LOG_TAG fmt args s).2)
      ∧ LOGI ret LOG_TAG fmt args s
        = ((), World.mk
            (s.log ++ [⟨android_LogPriority.ANDROID_LOG_INFO, LOG_TAG, fmt, args⟩]) s.rest)
      ∧ (appended s.log (LOGI ret LOG_TAG fmt args s).2.log).map
            (fun e => (e.prio, e.tag, e.text))
          = [(android_LogPriority.ANDROID_LOG_INFO, LOG_TAG, format fmt args)])
    ∧ (LOGW ret LOG_TAG fmt args s
        = ((), (__android_log_print ret android_LogPriority.ANDROID_LOG_WARN LOG_TAG fmt args s).2)
      ∧ LOGW ret LOG_TAG fmt args s
        = ((), World.mk
            (s.log ++ [⟨android_LogPriority.ANDROID_LOG_WARN, LOG_TAG, fmt, args⟩]) s.rest)
      ∧ (appended s.log (LOGW ret LOG_TAG fmt args s).2.log).map
            (fun e => (e.prio, e.tag, e.text))
          = [(android_LogPriority.ANDROID_LOG_WARN, LOG_TAG, format fmt args)])
    ∧ (LOGE ret LOG_TAG fmt args s
        = ((), (__android_log_print ret android_LogPriority.ANDROID_LOG_ERROR LOG_TAG fmt args s).2)
      ∧ LOGE ret LOG_TAG fmt args s
        = ((), World.mk
            (s.log ++ [⟨android_LogPriority.ANDROID_LOG_ERROR, LOG_TAG, fmt, args⟩]) s.rest)
      ∧ (appended s.log (LOGE ret LOG_TAG fmt args s).2.log).map
            (fun e => (e.prio, e.tag, e.text))
          = [(android_LogPriority.ANDROID_LOG_ERROR, LOG_TAG, format fmt args)])
    ∧ (LOGD ret LOG_TAG fmt args s
        = ((), (__android_log_print ret android_LogPriority.ANDROID_LOG_DEBUG LOG_TAG fmt args s).2)
      ∧ LOGD ret LOG_TAG fmt args s
        = ((), World.mk
            (s.log ++ [⟨android_LogPriority.ANDROID_LOG_DEBUG, LOG_TAG, fmt, args⟩]) s.rest)
      ∧ (appended s.log (LOGD ret LOG_TAG fmt args s).2.log).map
            (fun e => (e.prio, e.tag, e.text))
          = [(android_LogPriority.ANDROID_LOG_DEBUG, LOG_TAG, format fmt args)])
    ∧ (appended s.log
        (LOGW ret "MyTag" "%s took %d ms" [LogArg.str "capture", LogArg.int ⟨12, by decide⟩]
          s).2.log).map (fun e => (e.prio, e.tag, e.text))
      = [(android_LogPriority.ANDROID_LOG_WARN, "MyTag", some "capture took 12 ms")] := by
  have key : ∀ prio : android_LogPriority,
      (appended s.log (s.log ++ [(⟨prio, LOG_TAG, fmt, args⟩ : LogEntry)])).map
          (fun e => (e.prio, e.tag, e.text))
        = [(prio, LOG_TAG, format fmt args)] := by
    intro prio
    rw [appended_append]
    rfl
  refine ⟨⟨rfl, rfl, key _⟩, ⟨rfl, rfl, key _⟩, ⟨rfl, rfl, key _⟩, ⟨rfl, rfl, key _⟩, ?_⟩
  show (appended s.log (s.log ++ [_])).map _ = _
  rw [appended_append]
  decide

/-- C3: the entry point `processRaw` does not read the environment handle, the receiver or
the buffer reference: for every width and height, two calls that differ only in these
three arguments give the same result, and a call with a null buffer reference returns,
having written the two entries. -/
theorem processRaw_ignores_references {ρ : Type} (ret : ReturnCode) (env env' : JNIEnv)
    (this this' data data' : jobject) (width height : jint) (s : World ρ) :
    Java_com_mdnssknght_mycamera_processor_Processor_00024Companion_processRaw ret env this
        data width height s
      = Java_com_mdnssknght_mycamera_processor_Processor_00024Companion_processRaw ret env'
          this' data' width height s
    ∧ Java_com_mdnssknght_mycamera_processor_Processor_00024Companion_processRaw ret env
        this none width height s
      = ((), World.mk (s.log ++
          [⟨android_LogPriority.ANDROID_LOG_DEBUG, "MyProcessor", "RAW width: %d",
             [LogArg.int width]⟩,
           ⟨android_LogPriority.ANDROID_LOG_DEBUG, "MyProcessor", "RAW height: %d",
             [LogArg.int height]⟩]) s.rest) :=
  ⟨rfl, processRaw_eq ret env this none width height s⟩

/-- C4: a call of the entry point `processRaw` changes nothing but the log: the old log is
an initial segment of the new one (its entries kept, in order, at the front), the new log
is exactly two entries longer, and the rest of the state is unchanged. -/
theorem processRaw_frame {ρ : Type} (ret : ReturnCode) (env : JNIEnv) (this data : jobject)
    (width height : jint) (s : World ρ) :
    s.log <+:
      (Java_com_mdnssknght_mycamera_processor_Processor_00024Companion_processRaw ret env this
        data width height s).2.log
    ∧ (Java_com_mdnssknght_mycamera_processor_Processor_00024Companion_processRaw ret env this
        data width height s).2.log.take s.log.length = s.log
    ∧ (Java_com_mdnssknght_mycamera_processor_Processor_00024Companion_processRaw ret env this
        data width height s).2.log.length = s.log.length + 2
    ∧ (Java_com_mdnssknght_mycamera_processor_Processor_00024Companion_processRaw ret env this
        data width height s).2.rest = s.rest := by
  rw [processRaw_eq]
  refine ⟨⟨_, rfl⟩, ?_, ?_, rfl⟩
  · simp
  · simp

/-- C5: the four logging operations and the entry point `processRaw` have no failure path:
for every input they return the unit value together with the new state, and that result
is the same whatever integers the platform log-write primitive returns. -/
theorem no_failure_path {ρ : Type} (ret ret' : ReturnCode) (LOG_TAG fmt : String)
    (args : List LogArg) (env : JNIEnv) (this data : jobject) (width height : jint)
    (s : World ρ) :
    (LOGI ret LOG_TAG fmt args s = LOGI ret' LOG_TAG fmt args s
      ∧ ∃ s', LOGI ret LOG_TAG fmt args s = ((), s'))
    ∧ (LOGW ret LOG_TAG fmt args s = LOGW ret' LOG_TAG fmt args s
      ∧ ∃ s', LOGW ret LOG_TAG fmt args s = ((), s'))
    ∧ (LOGE ret LOG_TAG fmt args s = LOGE ret' LOG_TAG fmt args s
      ∧ ∃ s', LOGE ret LOG_TAG fmt args s = ((), s'))
    ∧ (LOGD ret LOG_TAG fmt args s = LOGD ret' LOG_TAG fmt args s
      ∧ ∃ s', LOGD ret LOG_TAG fmt args s = ((), s'))
    ∧ (Java_com_mdnssknght_mycamera_processor_Processor_00024Companion_processRaw ret env this
          data width height s
        = Java_com_mdnssknght_mycamera_processor_Processor_00024Companion_processRaw ret' env
            this data width height s
      ∧ ∃ s', Java_com_mdnssknght_mycamera_processor_Processor_00024Companion_processRaw ret
          env this data width height s = ((), s')) :=
  ⟨⟨rfl, _, rfl⟩, ⟨rfl, _, rfl⟩, ⟨rfl, _, rfl⟩, ⟨rfl, _, rfl⟩, ⟨rfl, _, rfl⟩⟩

theorem entriesAlone_eq (width height : jint) :
    entriesAlone width height
      = [⟨android_LogPriority.ANDROID_LOG_DEBUG, "MyProcessor", "RAW width: %d",
           [LogArg.int width]⟩,
         ⟨android_LogPriority.ANDROID_LOG_DEBUG, "MyProcessor", "RAW height: %d",
           [LogArg.int height]⟩] := by
  simp [entriesAlone, processRaw_eq]

theorem run_log {ρ : Type} (ret : ReturnCode) (c : Call) (s : World ρ) :
    (c.run ret s).log = s.log ++ entriesAlone c.width c.height := by
  simp [Call.run, processRaw_eq, entriesAlone_eq]

theorem run_rest {ρ : Type} (ret : ReturnCode) (c : Call) (s : World ρ) :
    (c.run ret s).rest = s.rest := by
  simp [Call.run, processRaw_eq]

theorem runCalls_log {ρ : Type} (ret : ReturnCode) (calls : List Call) : ∀ s : World ρ,
    (runCalls ret calls s).log
      = s.log ++ (calls.map (fun c => entriesAlone c.width c.height)).flatten := by
  induction calls with
  | nil => intro s; simp [runCalls]
  | cons c cs ih => intro s; simp [runCalls, ih, run_log]

theorem runCalls_rest {ρ : Type} (ret : ReturnCode) (calls : List Call) : ∀ s : World ρ,
    (runCalls ret calls s).rest = s.rest := by
  induction calls with
  | nil => intro s; simp [runCalls]
  | cons c cs ih => intro s; simp [runCalls, ih, run_rest]

theorem flatten_entriesAlone_length (calls : List Call) :
    (calls.map (fun c => entriesAlone c.width c.height)).flatten.length = 2 * calls.length := by
  induction calls with
  | nil => simp
  | cons c cs ih => simp [entriesAlone_eq] at ih ⊢; omega

/-- C6: the entry point `processRaw` is stateless: what one call writes is the pair of
entries it writes when run alone, whatever the log held before and whatever the other
arguments are; so a sequence of calls started from any log leaves that log followed by
the concatenation, in call order, of the pairs of the single calls, which are twice as
many entries as there are calls, and leaves the rest of the state unchanged. -/
theorem processRaw_stateless {ρ : Type} (ret : ReturnCode) (calls : List Call) (s : World ρ) :
    (∀ (c : Call) (t : World ρ),
      appended t.log (c.run ret t).log = entriesAlone c.width c.height
      ∧ (entriesAlone c.width c.height).length = 2)
    ∧ (runCalls ret calls s).log
        = s.log ++ (calls.map (fun c => entriesAlone c.width c.height)).flatten
    ∧ (appended s.log (runCalls ret calls s).log).length = 2 * calls.length
    ∧ (runCalls ret calls s).rest = s.rest := by
  refine ⟨fun c t => ⟨?_, ?_⟩, runCalls_log ret calls s, ?_, runCalls_rest ret calls s⟩
  · rw [run_log, appended_append]
  · simp [entriesAlone_eq]
  · rw [runCalls_log, appended_append, flatten_entriesAlone_length]

theorem string_append_left_cancel (p : String) (a b : List Char)
    (h : p ++ String.mk a = p ++ String.mk b) : a = b := by
  have h2 : (p ++ String.mk a).data = (p ++ String.mk b).data := by rw [h]
  simpa using h2

theorem jint_ext (a b : jint) (h : a.val = b.val) : a = b := Subtype.ext h

theorem processRaw_first {ρ : Type} (ret : ReturnCode) (env : JNIEnv) (this data : jobject)
    (width height : jint) (s : World ρ) :
    (appended s.log
          (Java_com_mdnssknght_mycamera_processor_Processor_00024Companion_processRaw ret env this
            data width height s).2.log)[0]?
      = some ⟨android_LogPriority.ANDROID_LOG_DEBUG, "MyProcessor", "RAW width: %d",
          [LogArg.int width]⟩ := by
  rw [processRaw_eq, appended_append]
  rfl

theorem processRaw_second {ρ : Type} (ret : ReturnCode) (env : JNIEnv) (this data : jobject)
    (width height : jint) (s : World ρ) :
    (appended s.log
          (Java_com_mdnssknght_mycamera_processor_Processor_00024Companion_processRaw ret env this
            data width height s).2.log)[1]?
      = some ⟨android_LogPriority.ANDROID_LOG_DEBUG, "MyProcessor", "RAW height: %d",
          [LogArg.int height]⟩ := by
  rw [processRaw_eq, appended_append]
  rfl

/-- C8: the entry point `processRaw` reports its dimensions as signed decimals and keeps
them apart. The first entry a call writes carries `width` and is the same for every
height, the second carries `height` and is the same for every width; their texts are
"RAW width: " and "RAW height: " followed by the signed decimal of the value, which for a
negative value starts with a minus sign (width -1 gives "RAW width: -1" and not
"RAW width: 4294967295"); and two calls, from any states and with any other arguments,
whose first (second) entries or their texts agree have equal widths (heights). -/
theorem processRaw_signed_decimal_dimensions {ρ : Type} (ret ret' : ReturnCode)
    (env env' : JNIEnv) (this this' data data' : jobject)
    (width height width' height' : jint) (s s' : World ρ) :
    ((appended s.log
          (Java_com_mdnssknght_mycamera_processor_Processor_00024Companion_processRaw ret env this
            data width height s).2.log)[0]?
        = some ⟨android_LogPriority.ANDROID_LOG_DEBUG, "MyProcessor", "RAW width: %d",
            [LogArg.int width]⟩
      ∧ (appended s.log
          (Java_com_mdnssknght_mycamera_processor_Processor_00024Companion_processRaw ret env this
            data width height s).2.log)[1]?
        = some ⟨android_LogPriority.ANDROID_LOG_DEBUG, "MyProcessor", "RAW height: %d",
            [LogArg.int height]⟩)
    ∧ ((appended s.log
          (Java_com_mdnssknght_mycamera_processor_Processor_00024Companion_processRaw ret env this
            data width height s).2.log)[0]?
        = (appended s.log
          (Java_com_mdnssknght_mycamera_processor_Processor_00024Companion_processRaw ret env this
            data width height' s).2.log)[0]?
      ∧ (appended s.log
          (Java_com_mdnssknght_mycamera_processor_Processor_00024Companion_processRaw ret env this
            data width height s).2.log)[1]?
        = (appended s.log
          (Java_com_mdnssknght_mycamera_processor_Processor_00024Companion_processRaw ret env this
            data width' height s).2.log)[1]?)
    ∧ (((appended s.log
          (Java_com_mdnssknght_mycamera_processor_Processor_00024Companion_processRaw ret env this
            data width height s).2.log)[0]?).bind LogEntry.text
        = some ("RAW width: " ++ String.mk (renderInt width.val))
      ∧ ((appended s.log
          (Java_com_mdnssknght_mycamera_processor_Processor_00024Companion_processRaw ret env this
            data width height s).2.log)[1]?).bind LogEntry.text
        = some ("RAW height: " ++ String.mk (renderInt height.val)))
    ∧ ((width.val < 0 →
        ((appended s.log
          (Java_com_mdnssknght_mycamera_processor_Processor_00024Companion_processRaw ret env this
            data width height s).2.log)[0]?).bind LogEntry.text
          = some ("RAW width: -" ++ String.mk (renderNat width.val.natAbs)))
      ∧ (height.val < 0 →
        ((appended s.log
          (Java_com_mdnssknght_mycamera_processor_Processor_00024Companion_processRaw ret env this
            data width height s).2.log)[1]?).bind LogEntry.text
          = some ("RAW height: -" ++ String.mk (renderNat height.val.natAbs))))
    ∧ (((appended s.log
          (Java_com_mdnssknght_mycamera_processor_Processor_00024Companion_processRaw ret env this
            data ⟨-1, by decide⟩ height s).2.log)[0]?).bind LogEntry.text
        = some "RAW width: -1"
      ∧ ((appended s.log
          (Java_com_mdnssknght_mycamera_processor_Processor_00024Companion_processRaw ret env this
            data ⟨-1, by decide⟩ height s).2.log)[0]?).bind LogEntry.text
        ≠ some "RAW width: 4294967295")
    ∧ (((appended s.log
          (Java_com_mdnssknght_mycamera_processor_Processor_00024Companion_processRaw ret env this
            data width height s).2.log)[0]?
          = (appended s'.log
          (Java_com_mdnssknght_mycamera_processor_Processor_00024Companion_processRaw ret' env' this'
            data' width' height' s').2.log)[0]? →
        width = width')
      ∧ ((appended s.log
          (Java_com_mdnssknght_mycamera_processor_Processor_00024Companion_processRaw ret env this
            data width height s).2.log)[1]?
          = (appended s'.log
          (Java_com_mdnssknght_mycamera_processor_Processor_00024Companion_processRaw ret' env' this'
            data' width' height' s').2.log)[1]? →
        height = height'))
    ∧ (((appended s.log
          (Java_com_mdnssknght_mycamera_processor_Processor_00024Companion_processRaw ret env this
            data width height s).2.log)[0]?).bind LogEntry.text
          = ((appended s'.log
          (Java_com_mdnssknght_mycamera_processor_Processor_00024Companion_processRaw ret' env' this'
            data' width' height' s').2.log)[0]?).bind LogEntry.text →
        width = width')
      ∧ (((appended s.log
          (Java_com_mdnssknght_mycamera_processor_Processor_00024Companion_processRaw ret env this
            data width height s).2.log)[1]?).bind LogEntry.text
          = ((appended s'.log
          (Java_com_mdnssknght_mycamera_processor_Processor_00024Companion_processRaw ret' env' this'
            data' width' height' s').2.log)[1]?).bind LogEntry.text →
        height = height') := by
  simp only [processRaw_first, processRaw_second, Option.some_bind, LogEntry.text,
    format_width, format_height]
  refine ⟨⟨trivial, trivial⟩, ⟨trivial, trivial⟩, ⟨trivial, trivial⟩, ⟨?_, ?_⟩, ⟨?_, ?_⟩,
    ⟨?_, ?_⟩, ?_, ?_⟩
  · intro h
    simp only [renderInt, h, if_true]
    rfl
  · intro h
    simp only [renderInt, h, if_true]
    rfl
  · decide
  · decide
  · intro h
    simpa using h
  · intro h
    simpa using h
  · intro h
    exact jint_ext _ _ (renderInt_injective _ _
      (string_append_left_cancel _ _ _ (Option.some.inj h)))
  · intro h
    exact jint_ext _ _ (renderInt_injective _ _
      (string_append_left_cancel _ _ _ (Option.some.inj h)))

/-- Witness for C8: calls with width -1 and height -480, one on an empty log and one, with
other references and another return code, on a log that already holds an entry. -/
theorem processRaw_signed_decimal_dimensions_witness :
    (((appended []
          (Java_com_mdnssknght_mycamera_processor_Processor_00024Companion_processRaw
            (fun _ _ => 1) (0 : Nat) none (some 7)
            ⟨-1, by decide⟩ ⟨-480, by decide⟩
            (World.mk [] ())).2.log)[0]?).bind LogEntry.text
        = some ("RAW width: -" ++ String.mk (renderNat 1))
      ∧ ((appended []
          (Java_com_mdnssknght_mycamera_processor_Processor_00024Companion_processRaw
            (fun _ _ => 1) (0 : Nat) none (some 7)
            ⟨-1, by decide⟩ ⟨-480, by decide⟩
            (World.mk [] ())).2.log)[1]?).bind LogEntry.text
        = some ("RAW height: -" ++ String.mk (renderNat 480)))
    ∧ (((appended []
          (Java_com_mdnssknght_mycamera_processor_Processor_00024Companion_processRaw
            (fun _ _ => 1) (0 : Nat) none (some 7)
            ⟨-1, by decide⟩ ⟨-480, by decide⟩
            (World.mk [] ())).2.log)[0]?)
        = ((appended [⟨android_LogPriority.ANDROID_LOG_INFO, "Camera", "opened %s", [LogArg.str "back"]⟩]
          (Java_com_mdnssknght_mycamera_processor_Processor_00024Companion_processRaw
            (fun _ _ => -1) (4096 : Nat) (some 1) none
            ⟨-1, by decide⟩ ⟨-480, by decide⟩
            (World.mk [⟨android_LogPriority.ANDROID_LOG_INFO, "Camera", "opened %s", [LogArg.str "back"]⟩] ())).2.log)[0]?)
      ∧ ((appended []
          (Java_com_mdnssknght_mycamera_processor_Processor_00024Companion_processRaw
            (fun _ _ => 1) (0 : Nat) none (some 7)
            ⟨-1, by decide⟩ ⟨-480, by decide⟩
            (World.mk [] ())).2.log)[0]?).bind LogEntry.text
        = ((appended [⟨android_LogPriority.ANDROID_LOG_INFO, "Camera", "opened %s", [LogArg.str "back"]⟩]
          (Java_com_mdnssknght_mycamera_processor_Processor_00024Companion_processRaw
            (fun _ _ => -1) (4096 : Nat) (some 1) none
            ⟨-1, by decide⟩ ⟨-480, by decide⟩
            (World.mk [⟨android_LogPriority.ANDROID_LOG_INFO, "Camera", "opened %s", [LogArg.str "back"]⟩] ())).2.log)[0]?).bind LogEntry.text)
    ∧ ((⟨-1, by decide⟩ : jint) = ⟨-1, by decide⟩
      ∧ (⟨-480, by decide⟩ : jint) = ⟨-480, by decide⟩)
    ∧ ((⟨-1, by decide⟩ : jint) = ⟨-1, by decide⟩
      ∧ (⟨-480, by decide⟩ : jint) = ⟨-480, by decide⟩) :=
  have h := processRaw_signed_decimal_dimensions (fun _ _ => 1) (fun _ _ => -1)
    (0 : Nat) (4096 : Nat) none (some 1) (some 7) none
    ⟨-1, by decide⟩ ⟨-480, by decide⟩ ⟨-1, by decide⟩ ⟨-480, by decide⟩
    (World.mk [] ())
    (World.mk [⟨android_LogPriority.ANDROID_LOG_INFO, "Camera", "opened %s", [LogArg.str "back"]⟩] ())
  ⟨⟨h.2.2.2.1.1 (by decide), h.2.2.2.1.2 (by decide)⟩,
   ⟨by decide, by decide⟩,
   ⟨h.2.2.2.2.2.1.1 (by decide), h.2.2.2.2.2.1.2 (by decide)⟩,
   ⟨h.2.2.2.2.2.2.1 (by decide), h.2.2.2.2.2.2.2 (by decide)⟩⟩

/-! ## Interleaved invocations -/

theorem stmt_log {ρ : Type} (ret : ReturnCode) (c : Call) (k : Nat) (hk : k < 2)
    (t : World ρ) :
    (c.stmt ret k t).log = t.log ++ ((entriesAlone c.width c.height).drop k).take 1
    ∧ (c.stmt ret k t).rest = t.rest := by
  interval_cases k <;> simp [Call.stmt, LOGD_eq, entriesAlone_eq, LOG_TAG]

theorem stmt_compose {ρ : Type} (ret : ReturnCode) (c : Call) (t : World ρ) :
    c.stmt ret 1 (c.stmt ret 0 t) = c.run ret t := rfl

theorem ownEntries_append (i : Nat) (a b : List (Nat × LogEntry)) :
    ownEntries i (a ++ b) = ownEntries i a ++ ownEntries i b := by
  simp [ownEntries]

theorem ownEntries_map_same (i : Nat) (x : List LogEntry) :
    ownEntries i (x.map (fun e => (i, e))) = x := by
  induction x with
  | nil => rfl
  | cons e es ih => simp [ownEntries] at ih ⊢; exact ih

theorem ownEntries_map_other (i j : Nat) (h : j ≠ i) (x : List LogEntry) :
    ownEntries j (x.map (fun e => (i, e))) = [] := by
  induction x with
  | nil => rfl
  | cons e es ih => simp [ownEntries, Ne.symm h] at ih ⊢

theorem step_inv {ρ : Type} (ret : ReturnCode) (calls : List Call) (s : World ρ) (i : Nat)
    (c : Config ρ)
    (hlog : c.world.log = s.log ++ c.trace.map Prod.snd)
    (hrest : c.world.rest = s.rest)
    (hown : ∀ j call, calls[j]? = some call →
      c.pc j ≤ 2
      ∧ ownEntries j c.trace = (entriesAlone call.width call.height).take (c.pc j)) :
    (c.step ret calls i).world.log = s.log ++ (c.step ret calls i).trace.map Prod.snd
    ∧ (c.step ret calls i).world.rest = s.rest
    ∧ ∀ j call, calls[j]? = some call →
      (c.step ret calls i).pc j ≤ 2
      ∧ ownEntries j (c.step ret calls i).trace
          = (entriesAlone call.width call.height).take ((c.step ret calls i).pc j) := by
  unfold Config.step
  cases hc : calls[i]? with
  | none => exact ⟨hlog, hrest, hown⟩
  | some call =>
    by_cases hpc : c.pc i < 2
    · obtain ⟨hl, hr⟩ := stmt_log ret call (c.pc i) hpc c.world
      simp only [hpc, if_true]
      rw [hl, appended_append]
      refine ⟨?_, by rw [hr, hrest], ?_⟩
      · simp [hlog, Function.comp_def]
      · intro j cj hj
        by_cases hji : j = i
        · subst hji
          rw [hc] at hj
          cases hj
          obtain ⟨_, ho⟩ := hown j call hc
          simp only [if_true, ownEntries_append, ownEntries_map_same, ho]
          refine ⟨by omega, ?_⟩
          rw [List.take_add]
        · obtain ⟨hle, ho⟩ := hown j cj hj
          simp only [hji, if_false, ownEntries_append, ownEntries_map_other i j hji, ho,
            List.append_nil]
          exact ⟨hle, trivial⟩
    · simp only [hpc, if_false]
      exact ⟨hlog, hrest, hown⟩

theorem interleave_inv {ρ : Type} (ret : ReturnCode) (calls : List Call) (s : World ρ)
    (sched : List Nat) : ∀ c : Config ρ,
    c.world.log = s.log ++ c.trace.map Prod.snd →
    c.world.rest = s.rest →
    (∀ j call, calls[j]? = some call →
      c.pc j ≤ 2
      ∧ ownEntries j c.trace = (entriesAlone call.width call.height).take (c.pc j)) →
    (interleave ret calls sched c).world.log
        = s.log ++ (interleave ret calls sched c).trace.map Prod.snd
    ∧ (interleave ret calls sched c).world.rest = s.rest
    ∧ ∀ j call, calls[j]? = some call →
      (interleave ret calls sched c).pc j ≤ 2
      ∧ ownEntries j (interleave ret calls sched c).trace
          = (entriesAlone call.width call.height).take ((interleave ret calls sched c).pc j) := by
  induction sched with
  | nil => intro c h1 h2 h3; exact ⟨h1, h2, h3⟩
  | cons i rest ih =>
    intro c h1 h2 h3
    obtain ⟨a, b, d⟩ := step_inv ret calls s i c h1 h2 h3
    exact ih (c.step ret calls i) a b d

theorem step_pc {ρ : Type} (ret : ReturnCode) (calls : List Call) (i j : Nat) (call : Call)
    (hj : calls[j]? = some call) (c : Config ρ) (hle : c.pc j ≤ 2) :
    (c.step ret calls i).pc j = min (c.pc j + (if i = j then 1 else 0)) 2 := by
  unfold Config.step
  by_cases hij : i = j
  · subst hij
    rw [hj]
    by_cases hpc : c.pc i < 2
    · simp [hpc]; omega
    · simp [hpc]; omega
  · cases hc : calls[i]? with
    | none => simp [hij]; omega
    | some ci =>
      by_cases hpc : c.pc i < 2
      · simp [hpc, hij, Ne.symm hij]; omega
      · simp [hpc, hij]; omega

theorem interleave_pc {ρ : Type} (ret : ReturnCode) (calls : List Call) (j : Nat) (call : Call)
    (hj : calls[j]? = some call) (sched : List Nat) : ∀ c : Config ρ, c.pc j ≤ 2 →
    (interleave ret calls sched c).pc j = min (c.pc j + sched.count j) 2 := by
  induction sched with
  | nil => intro c h; simp [interleave]; omega
  | cons i rest ih =>
    intro c h
    have hs := step_pc ret calls i j call hj c h
    have hle : (c.step ret calls i).pc j ≤ 2 := by rw [hs]; omega
    simp only [interleave]
    rw [ih _ hle, hs, List.count_cons]
    by_cases hij : i = j
    · simp [hij]; omega
    · simp [hij]; omega

/-- C7: when several invocations of the entry point `processRaw` run at once, each call
of the platform log-write primitive being one step, then under every interleaving: the two
steps of an invocation are those of the entry point itself; the log is the old log followed
by what the invocations wrote; nothing but the log changes; and for each invocation the
entries it wrote itself are, in the order of the log, its own width entry followed by its
own height entry, as far as it has run (both once it was scheduled twice), whatever the
other invocations did in between. -/
theorem processRaw_interleaved_invocations {ρ : Type} (ret : ReturnCode) (calls : List Call)
    (sched : List Nat) (s : World ρ) :
    (∀ (c : Call) (t : World ρ), c.stmt ret 1 (c.stmt ret 0 t) = c.run ret t)
    ∧ (interleave ret calls sched (Config.init s)).world.log
        = s.log ++ (interleave ret calls sched (Config.init s)).trace.map Prod.snd
    ∧ (interleave ret calls sched (Config.init s)).world.rest = s.rest
    ∧ ∀ (i : Nat) (call : Call), calls[i]? = some call →
        (interleave ret calls sched (Config.init s)).pc i = min (sched.count i) 2
        ∧ ownEntries i (interleave ret calls sched (Config.init s)).trace
          = (entriesAlone call.width call.height).take (min (sched.count i) 2)
        ∧ (2 ≤ sched.count i →
          ownEntries i (interleave ret calls sched (Config.init s)).trace
            = [⟨android_LogPriority.ANDROID_LOG_DEBUG, "MyProcessor", "RAW width: %d",
             [LogArg.int call.width]⟩,
               ⟨android_LogPriority.ANDROID_LOG_DEBUG, "MyProcessor", "RAW height: %d",
             [LogArg.int call.height]⟩]) := by
  have hinv := interleave_inv ret calls s sched (Config.init s) (by simp [Config.init]) rfl
    (fun j call _ => ⟨by simp [Config.init], by simp [Config.init, ownEntries]⟩)
  refine ⟨fun c t => rfl, hinv.1, hinv.2.1, fun i call hi => ?_⟩
  have hpc := interleave_pc ret calls i call hi sched (Config.init s) (by simp [Config.init])
  have hpc2 : (interleave ret calls sched (Config.init s)).pc i = min (sched.count i) 2 := by
    rw [hpc]
    simp [Config.init]
  have hown := (hinv.2.2 i call hi).2
  rw [hpc2] at hown
  refine ⟨hpc2, hown, fun h2 => ?_⟩
  rw [hown, Nat.min_eq_right h2, entriesAlone_eq]
  rfl

/-- Witness for C7: two invocations, (4032, 3024) and (-1, 480), where the second runs
both its steps between the two steps of the first. -/
theorem processRaw_interleaved_invocations_witness :
    ownEntries 0 (interleave (fun _ _ => 1)
          [(Call.mk (0 : Nat) none (some 7) ⟨4032, by decide⟩ ⟨3024, by decide⟩),
           (Call.mk (4096 : Nat) (some 1) none ⟨-1, by decide⟩ ⟨480, by decide⟩)]
          [0, 1, 1, 0] (Config.init (World.mk [] ()))).trace
      = [⟨android_LogPriority.ANDROID_LOG_DEBUG, "MyProcessor", "RAW width: %d",
           [LogArg.int ⟨4032, by decide⟩]⟩,
         ⟨android_LogPriority.ANDROID_LOG_DEBUG, "MyProcessor", "RAW height: %d",
           [LogArg.int ⟨3024, by decide⟩]⟩]
    ∧ ownEntries 1 (interleave (fun _ _ => 1)
          [(Call.mk (0 : Nat) none (some 7) ⟨4032, by decide⟩ ⟨3024, by decide⟩),
           (Call.mk (4096 : Nat) (some 1) none ⟨-1, by decide⟩ ⟨480, by decide⟩)]
          [0, 1, 1, 0] (Config.init (World.mk [] ()))).trace
      = [⟨android_LogPriority.ANDROID_LOG_DEBUG, "MyProcessor", "RAW width: %d",
           [LogArg.int ⟨-1, by decide⟩]⟩,
         ⟨android_LogPriority.ANDROID_LOG_DEBUG, "MyProcessor", "RAW height: %d",
           [LogArg.int ⟨480, by decide⟩]⟩]
    ∧ (interleave (fun _ _ => 1)
          [(Call.mk (0 : Nat) none (some 7) ⟨4032, by decide⟩ ⟨3024, by decide⟩),
           (Call.mk (4096 : Nat) (some 1) none ⟨-1, by decide⟩ ⟨480, by decide⟩)]
          [0, 1, 1, 0] (Config.init (World.mk [] ()))).world.log
      = [⟨android_LogPriority.ANDROID_LOG_DEBUG, "MyProcessor", "RAW width: %d",
           [LogArg.int ⟨4032, by decide⟩]⟩,
         ⟨android_LogPriority.ANDROID_LOG_DEBUG, "MyProcessor", "RAW width: %d",
           [LogArg.int ⟨-1, by decide⟩]⟩,
         ⟨android_LogPriority.ANDROID_LOG_DEBUG, "MyProcessor", "RAW height: %d",
           [LogArg.int ⟨480, by decide⟩]⟩,
         ⟨android_LogPriority.ANDROID_LOG_DEBUG, "MyProcessor", "RAW height: %d",
           [LogArg.int ⟨3024, by decide⟩]⟩] :=
  have h := processRaw_interleaved_invocations (fun _ _ => 1)
    [(Call.mk (0 : Nat) none (some 7) ⟨4032, by decide⟩ ⟨3024, by decide⟩),
     (Call.mk (4096 : Nat) (some 1) none ⟨-1, by decide⟩ ⟨480, by decide⟩)]
    [0, 1, 1, 0] (World.mk [] ())
  ⟨(h.2.2.2 0 _ rfl).2.2 (by decide), (h.2.2.2 1 _ rfl).2.2 (by decide), by decide⟩

end MyCamera
